import Mathlib

/- Shallow embedding of the arrow-buoys pipeline (Go, two processes): the
   sentinel-aware scalar parsers, the NDBC text parser, the fetch
   orchestrator, the atomic Parquet writer, the Parquet reader and the Arrow
   stream handler.  Machine integers are modeled as Int with an explicit
   wrap where the code converts to int32; float64 tokens are modeled with
   exact rational arithmetic (strconv.ParseFloat restricted to decimal
   literals with an exact overflow bound; binary rounding of the mantissa,
   hex floats, digit underscores and inf/nan spellings are not modeled -
   no claim depends on them).  The Parquet and Arrow codecs are external
   libraries (spec section 1 places them out of scope), so persisted file
   content is abstracted as the record list it encodes. -/

/- Go unicode.IsSpace restricted to the Latin-1 range: '\t' '\n' '\v' '\f'
   '\r' ' ' U+0085 U+00A0 (wider Unicode space classes are not modeled). -/
def isSpaceGo (c : Char) : Bool :=
  c.toNat = 32 || c.toNat = 9 || c.toNat = 10 || c.toNat = 11 ||
  c.toNat = 12 || c.toNat = 13 || c.toNat = 133 || c.toNat = 160

/- strings.Fields: split around runs of whitespace. -/
def fieldsAux : List Char → List Char → List String
  | [], cur => if cur.isEmpty then [] else [String.mk cur.reverse]
  | c :: rest, cur =>
    if isSpaceGo c then
      if cur.isEmpty then fieldsAux rest []
      else String.mk cur.reverse :: fieldsAux rest []
    else fieldsAux rest (c :: cur)

def fields (s : String) : List String := fieldsAux s.toList []

/- strings.TrimSpace. -/
def trimSpace (s : String) : String :=
  String.mk (((s.toList.dropWhile isSpaceGo).reverse.dropWhile isSpaceGo).reverse)

/- strings.HasPrefix. -/
def hasPrefixGo (s pre : String) : Bool := pre.toList.isPrefixOf s.toList

/- strings.TrimPrefix: strips one occurrence of the given leading string. -/
def trimPrefixGo (s pre : String) : String :=
  if pre.toList.isPrefixOf s.toList then String.mk (s.toList.drop pre.toList.length)
  else s

/- strings.ToUpper (the inputs at issue are ASCII). -/
def toUpperGo (s : String) : String := String.mk (s.toList.map Char.toUpper)

def digitsToNat (ds : List Char) : Nat :=
  ds.foldl (fun acc c => acc * 10 + (c.toNat - 48)) 0

/- Decimal integer syntax shared by strconv.ParseInt(s, 10, 64) and
   strconv.Atoi: an optional sign then at least one digit, exact value. -/
def parseIntCore (s : String) : Option Int :=
  match s.toList with
  | [] => none
  | cs =>
    let sd : Int × List Char :=
      match cs with
      | '+' :: r => (1, r)
      | '-' :: r => (-1, r)
      | r => (1, r)
    if sd.2.isEmpty then none
    else if sd.2.all Char.isDigit then some (sd.1 * (digitsToNat sd.2 : Int))
    else none

/- strconv.ParseInt(s, 10, 64) as used by atoiP, which treats any returned
   error as missing data, so a range overflow behaves like a syntax error. -/
def parseIntGo (s : String) : Option Int :=
  match parseIntCore s with
  | none => none
  | some v =>
    if v < -9223372036854775808 ∨ 9223372036854775807 < v then none else some v

/- strconv.Atoi with the error discarded, as in the date-field reads of the
   row normalizer: syntax errors yield 0, overflows yield the clamped int64. -/
def atoiGo (s : String) : Int :=
  match parseIntCore s with
  | none => 0
  | some v =>
    if 9223372036854775807 < v then 9223372036854775807
    else if v < -9223372036854775808 then -9223372036854775808
    else v

/- Smallest magnitude at which a decimal value rounds to the float64
   infinity, making strconv.ParseFloat report a range error: the literal is
   2 to the 1024 minus 2 to the 970 (the midpoint between the largest finite
   float64 and the next power of two, which rounds up to the infinity). -/
def floatOverflowNum : Int :=
  179769313486231580793728971405303415079934132710037826936173778980444968292764750946649017977587207096330286416692887910946555547851940402630657488671505820681908902000708383676273854845817711531764475730270069855571366959622842914819860834936475292719074168444365510704342711559699508093042880177904174497792

def overflowCheck (v : ℚ) : Option ℚ :=
  if mkRat floatOverflowNum 1 ≤ v ∨ v ≤ mkRat (-floatOverflowNum) 1 then none
  else some v

def takeDigits (cs : List Char) : List Char × List Char :=
  (cs.takeWhile Char.isDigit, cs.dropWhile Char.isDigit)

/- strconv.ParseFloat(s, 64) on decimal literals (optional sign, digits with
   at most one point, optional exponent), with the exact rational value: the
   mantissa digits form an integer and the net power of ten combines the
   exponent part with the length of the fraction part. -/
def parseFloatGo (s : String) : Option ℚ :=
  let cs := s.toList
  let sd : Bool × List Char :=
    match cs with
    | '+' :: r => (true, r)
    | '-' :: r => (false, r)
    | r => (true, r)
  let ip := takeDigits sd.2
  let fp : List Char × List Char :=
    match ip.2 with
    | '.' :: r => takeDigits r
    | r => ([], r)
  if ip.1.length + fp.1.length = 0 then none
  else
    let mant : Int := (digitsToNat (ip.1 ++ fp.1) : Int)
    let sMant : Int := if sd.1 then mant else -mant
    let mkVal : Int → Option ℚ := fun expTen =>
      if 0 ≤ expTen then overflowCheck (mkRat (sMant * (10 : Int) ^ expTen.toNat) 1)
      else overflowCheck (mkRat sMant ((10 : Nat) ^ (-expTen).toNat))
    match fp.2 with
    | [] => mkVal (-(fp.1.length : Int))
    | e :: r =>
      if e = 'e' ∨ e = 'E' then
        let esd : Bool × List Char :=
          match r with
          | '+' :: r2 => (true, r2)
          | '-' :: r2 => (false, r2)
          | r2 => (true, r2)
        let ed := takeDigits esd.2
        if ed.1.isEmpty ∨ ¬ ed.2.isEmpty then none
        else
          let ev : Int := (digitsToNat ed.1 : Int)
          mkVal ((if esd.1 then ev else -ev) - (fp.1.length : Int))
      else none

/- The x := int32(v) conversion: wraparound modulo 2^32 into [-2^31, 2^31). -/
def toInt32 (v : Int) : Int := (v + 2147483648) % 4294967296 - 2147483648

/- atoiP (src/unnamed/part_000 lines 44-54). -/
def atoiP (s : String) : Option Int :=
  if s = "" then none
  else
    match parseIntGo s with
    | none => none
    | some v =>
      if v = 99 ∨ v = 999 ∨ v = 9999 then none else some (toInt32 v)

/- atofP (src/unnamed/part_000 lines 57-66). -/
def atofP (s : String) : Option ℚ :=
  if s = "" then none
  else
    match parseFloatGo s with
    | none => none
    | some v =>
      if v = 99 ∨ v = 999 ∨ v = 9999 then none else some v

/- MetRow (src/unnamed/part_000 lines 22-32): the nullable pointer fields
   become Option values; Time is the int64 unix second count. -/
structure MetRow where
  StationID : String
  Time : Int
  WDIRDeg : Option Int
  WSPDmS : Option ℚ
  GUSTmS : Option ℚ
  PREShPa : Option ℚ
  ATMPC : Option ℚ
  WTMPC : Option ℚ
  DEWPC : Option ℚ
deriving DecidableEq

/- Proleptic Gregorian day count from 1970-01-01 for a normalized month in
   1..12 and an arbitrary day offset, as computed inside Go time.Date. -/
def daysFromCivil (y m d : Int) : Int :=
  let yAdj := if m ≤ 2 then y - 1 else y
  let era := yAdj.fdiv 400
  let yoe := yAdj - era * 400
  let mp := (m + 9).fmod 12
  let doy := (153 * mp + 2).fdiv 5 + (d - 1)
  let doe := yoe * 365 + yoe.fdiv 4 - yoe.fdiv 100 + doy
  era * 146097 + doe - 719468

/- Models time.Date(year, month, day, hour, minute, 0, 0, time.UTC).Unix():
   the month is normalized into the year (Go norm with floor semantics); the
   remaining fields enter linearly, exactly as Go folds their overflow into
   the day count. -/
def timeDateUnix (year month day hour minute : Int) : Int :=
  let m0 := month - 1
  let y := year + m0.fdiv 12
  let m := m0.fmod 12 + 1
  daysFromCivil y m day * 86400 + hour * 3600 + minute * 60

/- bufio.Reader.ReadLine over a bytes.Reader: split the document on newline
   bytes, strip a "\r\n" pair, and drop the empty tail produced by a final
   newline.  Lines longer than the 4096-byte bufio buffer (which ReadLine
   would chunk) are not modeled. -/
def splitOnNL : List Char → List (List Char)
  | [] => [[]]
  | '\n' :: rest => [] :: splitOnNL rest
  | c :: rest =>
    match splitOnNL rest with
    | [] => [[c]]
    | p :: ps => (c :: p) :: ps

def stripTrailCR (l : List Char) : List Char :=
  if l.getLast? = some '\r' then l.dropLast else l

def bufioLines (body : String) : List String :=
  let ps := splitOnNL body.toList
  let front := ps.dropLast.map (fun l => String.mk (stripTrailCR l))
  let back := ps.getLastD []
  if back.isEmpty then front else front ++ [String.mk back]

/- The reader feeding the parser loop: an in-memory bytes.Reader delivers
   every line without a read error (the only terminal condition is EOF), so
   each element is ok; the scan loop below still carries the error branch of
   the source (lines 87-89). -/
def bytesReaderLines (body : String) : List (Except String String) :=
  (bufioLines body).map Except.ok

/- The line-scanning loop of parseNdbcStdMet (src/unnamed/part_000 lines
   82-108): comment lines whose trimmed content has the YY prefix (re)assign
   the header - the assignment at line 96 is unconditional, so a later
   qualifying line overwrites an earlier one; blank lines are skipped; other
   lines with at least 5 fields are collected as data in document order. -/
def scanLoop : List (Except String String) → Option (List String) →
    Except String (Option (List String) × List (List String))
  | [], hdr => .ok (hdr, [])
  | .error e :: _, _ => .error e
  | .ok line :: rest, hdr =>
    if hasPrefixGo line "#" then
      let t := trimSpace (trimPrefixGo line "#")
      if hasPrefixGo t "YY" || hasPrefixGo t "YYYY" then
        scanLoop rest (some (fields t))
      else scanLoop rest hdr
    else if trimSpace line = "" then scanLoop rest hdr
    else if 5 ≤ (fields line).length then
      match scanLoop rest hdr with
      | .error e => .error e
      | .ok (h, d) => .ok (h, fields line :: d)
    else scanLoop rest hdr

/- The header-tracking part of the scan, stated separately for the
   decomposition lemma: returns the last qualifying comment line's fields. -/
def headerScan : List String → Option (List String) → Option (List String)
  | [], hdr => hdr
  | line :: rest, hdr =>
    if hasPrefixGo line "#" then
      let t := trimSpace (trimPrefixGo line "#")
      if hasPrefixGo t "YY" || hasPrefixGo t "YYYY" then
        headerScan rest (some (fields t))
      else headerScan rest hdr
    else headerScan rest hdr

/- The data-collecting part of the scan: the candidate data rows (at least 5
   whitespace fields, not comment, not blank) in document order. -/
def candidateRows : List String → List (List String)
  | [] => []
  | line :: rest =>
    if hasPrefixGo line "#" then candidateRows rest
    else if trimSpace line = "" then candidateRows rest
    else if 5 ≤ (fields line).length then fields line :: candidateRows rest
    else candidateRows rest

/- The fallback header (src/unnamed/part_000 lines 111-118). -/
def defaultHeader : List String :=
  ["YYYY", "MM", "DD", "hh", "mm",
   "WDIR", "WSPD", "GST", "WVHT", "DPD",
   "APD", "MWD", "PRES", "PTDY", "ATMP",
   "WTMP", "DEWP", "VIS", "TIDE"]

/- The idx map (lines 120-123): a Go map filled in slice order, so a later
   duplicate uppercased name overwrites an earlier one (both "MM" and "mm"
   land on the key "MM", and the later column index wins). -/
def buildIdx (header : List String) : List (String × Nat) :=
  header.enum.map (fun p => (toUpperGo p.2, p.1))

def mapLookup (idx : List (String × Nat)) (key : String) : Option Nat :=
  match idx.reverse.find? (fun p => p.1 == key) with
  | some p => some p.2
  | none => none

/- get (lines 68-73). -/
def get (cols : List String) (idx : List (String × Nat)) (key : String) : String :=
  match mapLookup idx (toUpperGo key) with
  | some i => if i < cols.length then cols.getD i "" else ""
  | none => ""

/- The per-row normalization (lines 130-165). -/
def mkRow (station : String) (idx : List (String × Nat)) (cols : List String) : MetRow :=
  let yy0 := get cols idx "YYYY"
  let yy := if yy0 = "" then get cols idx "YY" else yy0
  let mm := get cols idx "MM"
  let dd := get cols idx "DD"
  let hh0 := get cols idx "HH"
  let hh := if hh0 = "" then get cols idx "hh" else hh0
  let mn := get cols idx "mm"
  let year0 := atoiGo yy
  let year := if yy.length = 2 then year0 + 2000 else year0
  { StationID := toUpperGo station
    Time := timeDateUnix year (atoiGo mm) (atoiGo dd) (atoiGo hh) (atoiGo mn)
    WDIRDeg := atoiP (get cols idx "WDIR")
    WSPDmS := atofP (get cols idx "WSPD")
    GUSTmS := atofP (get cols idx "GST")
    PREShPa := atofP (get cols idx "PRES")
    ATMPC := atofP (get cols idx "ATMP")
    WTMPC := atofP (get cols idx "WTMP")
    DEWPC := atofP (get cols idx "DEWP") }

/- parseNdbcStdMet (src/unnamed/part_000 lines 77-169). -/
def parseNdbcStdMet (station body : String) (maxRows : Int) :
    Except String (List MetRow) :=
  match scanLoop (bytesReaderLines body) none with
  | .error e => .error e
  | .ok (hdrOpt, data) =>
    let header := match hdrOpt with | none => defaultHeader | some h => h
    let idx := buildIdx header
    let data2 :=
      if 0 < maxRows ∧ maxRows < (data.length : Int) then data.take maxRows.toNat
      else data
    .ok (data2.map (mkRow station idx))

/- The outcome of the HTTP transaction inside fetchStation, supplied as an
   input of the model: a transport error, or a response with a status code
   and either the fully read body or a body-read error. -/
inductive HTTPResult where
  | transportErr : String → HTTPResult
  | response : Nat → Except String String → HTTPResult

/- fetchStation (src/unnamed/part_000 lines 171-190), given the transaction
   outcome for the station's URL. -/
def fetchStation (station : String) (result : HTTPResult) :
    Except String (List MetRow) :=
  match result with
  | .transportErr e => .error ("fetch " ++ station ++ ": " ++ e)
  | .response status body =>
    if status ≠ 200 then .error ("fetch " ++ station ++ ": HTTP " ++ toString status)
    else
      match body with
      | .error e => .error e
      | .ok b => parseNdbcStdMet station b 48

/- The header actually used for a document: the last qualifying comment
   line, or the fallback header when none is present. -/
def headerOf (body : String) : List String :=
  match headerScan (bufioLines body) none with
  | none => defaultHeader
  | some h => h

/- The data directory as a map from path to the decoded content of the file
   at that path (none = no file). -/
def FS : Type := String → Option (List MetRow)

def setFile (fs : FS) (p : String) (v : Option (List MetRow)) : FS :=
  fun q => if q = p then v else fs q

/- The step of writeParquet at which an injected encoding or I/O failure
   occurs: os.Create, w.Write, w.Close, f.Close, os.Rename. -/
inductive WFail where
  | create | write | closeWriter | closeFile | rename
deriving DecidableEq

/- writeParquet (src/unnamed/part_000 lines 193-216) with the first failing
   step, if any, injected.  Failures of w.Write, w.Close and f.Close remove
   the temp file (lines 203, 208, 212) and leave the target untouched; a
   failed os.Create leaves the file system untouched; a failed final
   os.Rename (line 215) leaves the fully written temp file behind; on
   success the temp file is renamed onto the target path. -/
def writeParquet (failAt : Option WFail) (fs : FS) (path : String)
    (rows : List MetRow) : FS × Option String :=
  let tmp := path ++ ".tmp"
  match failAt with
  | some .create => (fs, some "create")
  | some .write => (setFile (setFile fs tmp (some [])) tmp none, some "write")
  | some .closeWriter => (setFile (setFile fs tmp (some [])) tmp none, some "close writer")
  | some .closeFile => (setFile (setFile fs tmp (some rows)) tmp none, some "close file")
  | some .rename => (setFile fs tmp (some rows), some "rename")
  | none =>
    (setFile (setFile (setFile fs tmp (some rows)) tmp none) path (some rows), none)

/- The GenericReader.Read loop of readParquet (src/go-source/main.go lines
   114-127): each call yields up to 1024 rows appended to the accumulator,
   until a call yields none and EOF breaks the loop.  The fuel argument (an
   upper bound on the iteration count) stands in for the unbounded loop. -/
def readLoop : Nat → List MetRow → List MetRow → List MetRow
  | 0, _, all => all
  | _ + 1, [], all => all
  | fuel + 1, l, all => readLoop fuel (l.drop 1024) (all ++ l.take 1024)

/- readParquet (src/go-source/main.go lines 104-129). -/
def readParquet (fs : FS) (path : String) : Except String (List MetRow) :=
  match fs path with
  | none => .error "open"
  | some rows => .ok (readLoop rows.length rows [])

/- The Arrow schema fields of buildSchema (src/go-source/main.go lines
   33-46): name, logical type, nullability. -/
structure ArrowField where
  name : String
  dataType : String
  nullable : Bool
deriving DecidableEq

def buildSchema : List ArrowField :=
  [⟨"station_id", "utf8", false⟩,
   ⟨"time", "timestamp[s, UTC]", false⟩,
   ⟨"wdir_deg", "int32", true⟩,
   ⟨"wspd_ms", "float64", true⟩,
   ⟨"gust_ms", "float64", true⟩,
   ⟨"pres_hpa", "float64", true⟩,
   ⟨"atmp_c", "float64", true⟩,
   ⟨"wtmp_c", "float64", true⟩,
   ⟨"dewp_c", "float64", true⟩]

/- One logical row of an emitted Arrow record batch. -/
structure ArrowRow where
  station_id : String
  time : Int
  wdir_deg : Option Int
  wspd_ms : Option ℚ
  gust_ms : Option ℚ
  pres_hpa : Option ℚ
  atmp_c : Option ℚ
  wtmp_c : Option ℚ
  dewp_c : Option ℚ
deriving DecidableEq

/- appendOptF64 (src/go-source/main.go lines 48-54): null appends null, a
   value appends the value. -/
def appendOptF64 (p : Option ℚ) : Option ℚ :=
  match p with
  | none => none
  | some v => some v

/- rowsToRecord (src/go-source/main.go lines 56-101): one Arrow row per
   MetRow, each column appended from the corresponding field. -/
def rowsToRecord (rows : List MetRow) : List ArrowRow :=
  rows.map (fun r =>
    { station_id := r.StationID
      time := r.Time
      wdir_deg := match r.WDIRDeg with | none => none | some v => some v
      wspd_ms := appendOptF64 r.WSPDmS
      gust_ms := appendOptF64 r.GUSTmS
      pres_hpa := appendOptF64 r.PREShPa
      atmp_c := appendOptF64 r.ATMPC
      wtmp_c := appendOptF64 r.WTMPC
      dewp_c := appendOptF64 r.DEWPC })

/- The outbound stream: the schema declared once at the start, then the
   emitted record batches in order. -/
structure ArrowStream where
  schema : List ArrowField
  batches : List (List ArrowRow)
deriving DecidableEq

/- The per-file loop of streamHandler (src/go-source/main.go lines 151-166):
   a file whose read fails is skipped, a file with zero rows is skipped,
   otherwise its rows are emitted as one batch. -/
def streamLoop (fs : FS) : List String → List (List ArrowRow)
  | [] => []
  | p :: rest =>
    match readParquet fs p with
    | .error _ => streamLoop fs rest
    | .ok rows =>
      if rows.length = 0 then streamLoop fs rest
      else rowsToRecord rows :: streamLoop fs rest

/- streamHandler (src/go-source/main.go lines 131-167) given the glob
   matches in discovery order: the ipc writer declares the schema once and
   zero matches return early with the schema-only stream (not an error). -/
def streamHandler (fs : FS) (files : List String) : ArrowStream :=
  if files.length = 0 then { schema := buildSchema, batches := [] }
  else { schema := buildSchema, batches := streamLoop fs files }

/- The batch, if any, that a discovered file contributes to the stream. -/
def goodBatch (fs : FS) (p : String) : Option (List ArrowRow) :=
  match readParquet fs p with
  | .error _ => none
  | .ok rows => if rows.length = 0 then none else some (rowsToRecord rows)

/- A writer invocation of the ingest loop: target path and rows handed to
   writeParquet. -/
abbrev WriteEvent : Type := String × List MetRow

/- The per-station body of the runOnce loop (src/unnamed/part_000 lines
   223-243): trim the configured name, skip blank names, skip stations whose
   fetch failed, skip stations with zero parsed rows, otherwise invoke
   writeParquet on <dataDir>/<STATION>_latest.parquet.  The second component
   records each writer invocation. -/
def processStation (failAt : Option WFail) (dataDir s : String)
    (fetchRes : Except String (List MetRow)) (fs : FS) : FS × List WriteEvent :=
  let t := trimSpace s
  if t = "" then (fs, [])
  else
    match fetchRes with
    | .error _ => (fs, [])
    | .ok rows =>
      if rows.length = 0 then (fs, [])
      else
        let out := dataDir ++ "/" ++ toUpperGo t ++ "_latest.parquet"
        ((writeParquet failAt fs out rows).1, [(out, rows)])

/- runOnce (src/unnamed/part_000 lines 218-244) over the station list, given
   per-station fetch outcomes and injected write failures; the initial
   os.MkdirAll is outside the file-content model. -/
def runOnce (dataDir : String) (oracle : String → Except String (List MetRow))
    (failOracle : String → Option WFail) : List String → FS → FS × List WriteEvent
  | [], fs => (fs, [])
  | s :: rest, fs =>
    let r1 := processStation (failOracle s) dataDir s (oracle s) fs
    let r2 := runOnce dataDir oracle failOracle rest r1.1
    (r2.1, r1.2 ++ r2.2)

/- The scenario-1 document of the spec, with the elided columns filled in
   from the standard NDBC realtime2 layout. -/
def scenario1Body : String :=
  "#YYYY MM DD hh mm WDIR WSPD GST WVHT DPD APD MWD PRES PTDY ATMP WTMP DEWP\n2024 03 15 12 00 180 5.1 6.2 99.00 99.00 99.00 999 9999.0 99.00 99 21.3 99\n"

/- A document with two qualifying header comment lines that place WDIR at
   different column positions, then one data row. -/
def twoHeaderBody : String :=
  "#YYYY MM DD hh WDIR\n#YYYY WDIR DD hh mm\n2024 180 15 12 30\n"

/- An empty file-system and one holding a single zero-row file. -/
def fsW : FS := fun _ => none

def fsOneEmpty : FS := setFile (fun _ => none) "A_latest.parquet" (some [])

/- A one-record list for witnesses. -/
def rowW : MetRow :=
  { StationID := "SANF1", Time := 0, WDIRDeg := none, WSPDmS := none,
    GUSTmS := none, PREShPa := none, ATMPC := none, WTMPC := none, DEWPC := none }

/- Helper lemmas. -/

theorem readLoop_eq (fuel : Nat) : ∀ (l all : List MetRow), l.length ≤ fuel →
    readLoop fuel l all = all ++ l := by
  induction fuel with
  | zero =>
    intro l all h
    have hl : l = [] := List.eq_nil_of_length_eq_zero (Nat.le_zero.mp h)
    subst hl
    simp [readLoop]
  | succ n ih =>
    intro l all h
    cases l with
    | nil => simp [readLoop]
    | cons x xs =>
      have hlen : ((x :: xs).drop 1024).length ≤ n := by
        rw [List.length_drop]
        simp only [List.length_cons] at h ⊢
        omega
      calc readLoop (n + 1) (x :: xs) all
          = readLoop n ((x :: xs).drop 1024) (all ++ (x :: xs).take 1024) := rfl
        _ = (all ++ (x :: xs).take 1024) ++ (x :: xs).drop 1024 := ih _ _ hlen
        _ = all ++ ((x :: xs).take 1024 ++ (x :: xs).drop 1024) := by rw [List.append_assoc]
        _ = all ++ (x :: xs) := by rw [List.take_append_drop]

theorem scanLoop_decomp (lines : List String) : ∀ hdr,
    scanLoop (lines.map Except.ok) hdr = .ok (headerScan lines hdr, candidateRows lines) := by
  induction lines with
  | nil => intro hdr; rfl
  | cons line rest ih =>
    intro hdr
    by_cases h1 : hasPrefixGo line "#"
    · by_cases h2 : (hasPrefixGo (trimSpace (trimPrefixGo line "#")) "YY" ||
        hasPrefixGo (trimSpace (trimPrefixGo line "#")) "YYYY")
      · simp [scanLoop, headerScan, candidateRows, h1, h2, ih]
      · simp [scanLoop, headerScan, candidateRows, h1, h2, ih]
    · by_cases h2 : trimSpace line = ""
      · simp [scanLoop, headerScan, candidateRows, h1, h2, ih]
      · by_cases h3 : 5 ≤ (fields line).length
        · simp [scanLoop, headerScan, candidateRows, h1, h2, h3, ih]
        · simp [scanLoop, headerScan, candidateRows, h1, h2, h3, ih]

theorem ne_tmp (p : String) : p ≠ p ++ ".tmp" := by
  intro h
  have h2 := congrArg String.length h
  have h3 : (".tmp" : String).length = 4 := rfl
  rw [String.length_append, h3] at h2
  omega

theorem streamLoop_eq_filterMap (fs : FS) (l : List String) :
    streamLoop fs l = l.filterMap (goodBatch fs) := by
  induction l with
  | nil => rfl
  | cons p rest ih =>
    simp only [streamLoop, List.filterMap_cons, goodBatch]
    cases hr : readParquet fs p with
    | error e => simpa using ih
    | ok rows =>
      by_cases h0 : rows.length = 0
      · simp [h0, ih]
      · simp [h0, ih]

/-- C3: every token in the set containing the empty token, "99", "999",
"9999" and "99.0" parses to absent under both scalar parsers, and "99.0" is
recognized as a sentinel for the real kind by comparing its numeric value
(99) after parsing. -/
theorem scalar_sentinels_absent :
    atoiP "" = none ∧ atoiP "99" = none ∧ atoiP "999" = none ∧
    atoiP "9999" = none ∧ atoiP "99.0" = none ∧
    atofP "" = none ∧ atofP "99" = none ∧ atofP "999" = none ∧
    atofP "9999" = none ∧ atofP "99.0" = none ∧
    parseFloatGo "99.0" = some 99 := by
  decide

/-- C4 counterexample: the token "4294967395" parses as a 64-bit integer to
4294967395, which is not a sentinel, yet atoiP returns 99 - the int32
conversion wraps the value, so the parser does not return the parsed value. -/
theorem atoiP_int32_wrap_cex :
    parseIntGo "4294967395" = some 4294967395 ∧
    ¬ ((4294967395 : Int) = 99 ∨ (4294967395 : Int) = 999 ∨ (4294967395 : Int) = 9999) ∧
    atoiP "4294967395" = some 99 ∧
    some (99 : Int) ≠ some (4294967395 : Int) := by
  refine ⟨by decide, by decide, by decide, by decide⟩

/-- C4 amended: a token that parses successfully with a non-sentinel value is
returned exactly by the real-kind parser, and by the integer-kind parser
whenever the parsed value fits the signed 32-bit range (outside that range
the integer kind returns the value wrapped modulo 2^32). -/
theorem scalar_exact_value_amended :
    (∀ s v, parseIntGo s = some v →
      ¬ (v = 99 ∨ v = 999 ∨ v = 9999) →
      -2147483648 ≤ v → v < 2147483648 →
      atoiP s = some v) ∧
    (∀ s q, parseFloatGo s = some q →
      ¬ (q = 99 ∨ q = 999 ∨ q = 9999) →
      atofP s = some q) := by
  constructor
  · intro s v hp hsent hlo hhi
    have hs : s ≠ "" := by
      intro h
      subst h
      rw [(by decide : parseIntGo "" = none)] at hp
      cases hp
    unfold atoiP
    rw [if_neg hs, hp]
    simp only [if_neg hsent]
    have hw : toInt32 v = v := by
      unfold toInt32
      omega
    rw [hw]
  · intro s q hp hsent
    have hs : s ≠ "" := by
      intro h
      subst h
      rw [(by decide : parseFloatGo "" = none)] at hp
      cases hp
    unfold atofP
    rw [if_neg hs, hp]
    simp only [if_neg hsent]

/-- C4 amended witness at the in-range token "180" and the real token "5.1". -/
theorem scalar_exact_value_amended_witness :
    atoiP "180" = some 180 ∧ atofP "5.1" = some (mkRat 51 10) := by
  constructor
  · exact scalar_exact_value_amended.1 "180" 180 (by decide) (by decide) (by decide) (by decide)
  · exact scalar_exact_value_amended.2 "5.1" (mkRat 51 10) (by decide) (by decide)

/-- C9: the parser never returns an error: the in-memory reader produces
only clean lines ending in EOF, so for every station, document and cap the
result is an ok record list and the error branch is unreachable. -/
theorem parseNdbcStdMet_never_errors (station body : String) (maxRows : Int) :
    ∃ rows, parseNdbcStdMet station body maxRows = .ok rows := by
  unfold parseNdbcStdMet bytesReaderLines
  rw [scanLoop_decomp]
  exact ⟨_, rfl⟩

/-- C7: when the cap is positive and the candidate data rows outnumber it,
exactly the first cap rows in document order are normalized into records;
otherwise all candidate rows are; and fetchStation hands every successful
200 response body to the parser with the fixed cap 48. -/
theorem parse_cap_and_fetch_cap48 :
    (∀ station body (maxRows : Int), 0 < maxRows →
      maxRows < ((candidateRows (bufioLines body)).length : Int) →
      parseNdbcStdMet station body maxRows =
        .ok (((candidateRows (bufioLines body)).take maxRows.toNat).map
          (mkRow station (buildIdx (headerOf body))))) ∧
    (∀ station body (maxRows : Int),
      ¬ (0 < maxRows ∧ maxRows < ((candidateRows (bufioLines body)).length : Int)) →
      parseNdbcStdMet station body maxRows =
        .ok ((candidateRows (bufioLines body)).map
          (mkRow station (buildIdx (headerOf body))))) ∧
    (∀ station body, fetchStation station (.response 200 (.ok body)) =
      parseNdbcStdMet station body 48) := by
  refine ⟨?_, ?_, ?_⟩
  · intro station body maxRows h1 h2
    unfold parseNdbcStdMet bytesReaderLines headerOf
    rw [scanLoop_decomp]
    simp only [if_pos (And.intro h1 h2)]
  · intro station body maxRows h
    unfold parseNdbcStdMet bytesReaderLines headerOf
    rw [scanLoop_decomp]
    simp only [if_neg h]
  · intro station body
    rfl

/-- C7 witness: a two-row document with cap 1 keeps exactly the first row. -/
theorem parse_cap_and_fetch_cap48_witness :
    parseNdbcStdMet "S" "1 2 3 4 5\n6 7 8 9 10\n" 1 =
      .ok (((candidateRows (bufioLines "1 2 3 4 5\n6 7 8 9 10\n")).take 1).map
        (mkRow "S" (buildIdx (headerOf "1 2 3 4 5\n6 7 8 9 10\n")))) :=
  parse_cap_and_fetch_cap48.1 "S" "1 2 3 4 5\n6 7 8 9 10\n" 1 (by decide) (by decide)

/-- C1: on the scenario-1 document the parser produces exactly one record
with station "SANF1", wind direction 180, wind speed 5.1, gust 6.2, air
temperature and dew point absent and water temperature 21.3, as claimed -
but its timestamp is 2023-12-15T12:00:00Z (unix 1702641600), not the claimed
2024-03-15T12:00:00Z (unix 1710504000): the case-insensitive column index
maps the month header "MM" and the minute header "mm" to the same key, the
later minute column wins, and the month is parsed from the minute token
"00", so time.Date normalizes month 0 to December of the previous year. -/
theorem parseNdbcStdMet_scenario1 :
    parseNdbcStdMet "SANF1" scenario1Body 48 =
      .ok [{ StationID := "SANF1", Time := 1702641600,
             WDIRDeg := some 180, WSPDmS := some (mkRat 51 10),
             GUSTmS := some (mkRat 31 5), PREShPa := none, ATMPC := none,
             WTMPC := some (mkRat 213 10), DEWPC := none }] ∧
    timeDateUnix 2024 3 15 12 0 = 1710504000 ∧
    timeDateUnix 2024 0 15 12 0 = 1702641600 := by
  refine ⟨by rfl, by decide, by decide⟩

/-- C2: on a document with two qualifying comment lines the parser resolves
columns by the last one, not the first: the parsed record carries wind
direction 180 (the position named by the second header line), while
normalizing the same row against the first header line's index would give
wind direction 30. -/
theorem parseNdbcStdMet_two_headers :
    ((parseNdbcStdMet "X" twoHeaderBody 48).map (fun rs => rs.map MetRow.WDIRDeg)) =
      .ok [some 180] ∧
    (mkRow "X" (buildIdx (fields "YYYY MM DD hh WDIR"))
      ["2024", "180", "15", "12", "30"]).WDIRDeg = some 30 := by
  exact ⟨rfl, rfl⟩

/-- C5: when an encoding or I/O failure hits the writing phase (w.Write,
w.Close or f.Close), writeParquet returns an error, the temporary file is
deleted, and the file at the target path is exactly what it was before the
call (unchanged, or still absent). -/
theorem writeParquet_failure_atomic (fs : FS) (path : String) (rows : List MetRow)
    (failAt : WFail)
    (h : failAt = WFail.write ∨ failAt = WFail.closeWriter ∨ failAt = WFail.closeFile) :
    ((writeParquet (some failAt) fs path rows).2.isSome = true) ∧
    ((writeParquet (some failAt) fs path rows).1 (path ++ ".tmp") = none) ∧
    ((writeParquet (some failAt) fs path rows).1 path = fs path) := by
  have hne := ne_tmp path
  rcases h with h | h | h <;> subst h <;>
    exact ⟨rfl, by simp [writeParquet, setFile], by simp [writeParquet, setFile, hne]⟩

/-- C5 witness: a write failure on an empty file system at a concrete path. -/
theorem writeParquet_failure_atomic_witness :
    ((writeParquet (some WFail.write) fsW "SANF1_latest.parquet" []).2.isSome = true) ∧
    ((writeParquet (some WFail.write) fsW "SANF1_latest.parquet" []).1
      ("SANF1_latest.parquet" ++ ".tmp") = none) ∧
    ((writeParquet (some WFail.write) fsW "SANF1_latest.parquet" []).1
      "SANF1_latest.parquet" = fsW "SANF1_latest.parquet") :=
  writeParquet_failure_atomic fsW "SANF1_latest.parquet" [] WFail.write (Or.inl rfl)

/-- C6: a successful writeParquet followed by readParquet on the same path
returns exactly the written record list, field for field; the optional
fields are Option values, so absent and present survive as such. -/
theorem writeParquet_readParquet_roundtrip (fs : FS) (path : String) (rows : List MetRow) :
    (writeParquet none fs path rows).2 = none ∧
    readParquet (writeParquet none fs path rows).1 path = .ok rows := by
  refine ⟨rfl, ?_⟩
  have h1 : (writeParquet none fs path rows).1 path = some rows := by
    simp [writeParquet, setFile]
  unfold readParquet
  rw [h1]
  exact congrArg Except.ok
    ((readLoop_eq rows.length rows [] (Nat.le_refl _)).trans (List.nil_append rows))

/-- C8 counterexample: one file is discovered but it decodes to zero
records, so the stream is schema-only with zero batches - not one batch per
discovered file as claimed. -/
theorem streamHandler_zero_rows_cex :
    streamHandler fsOneEmpty ["A_latest.parquet"] =
      { schema := buildSchema, batches := [] } ∧
    readParquet fsOneEmpty "A_latest.parquet" = .ok [] ∧
    (["A_latest.parquet"] : List String).length = 1 := by
  exact ⟨rfl, rfl, rfl⟩

/-- C8 amended: the stream always opens with the schema; zero discovered
files yield the schema-only stream (not an error), and otherwise one batch
is emitted per discovered file whose decode succeeds with a non-empty row
list, in file-discovery order - files that fail to decode or decode to zero
rows are skipped. -/
theorem streamHandler_batches_amended (fs : FS) (files : List String) :
    streamHandler fs files =
      { schema := buildSchema, batches := files.filterMap (goodBatch fs) } ∧
    streamHandler fs [] = { schema := buildSchema, batches := [] } := by
  constructor
  · unfold streamHandler
    by_cases h : files.length = 0
    · rw [if_pos h]
      rw [List.length_eq_zero] at h
      subst h
      rfl
    · rw [if_neg h, streamLoop_eq_filterMap]
  · rfl

/-- C10: in the per-station step of the ingest cycle, a fetch that succeeds
with an empty record list triggers no writer invocation and leaves the file
system - hence the station's previously persisted file - unchanged; and any
writer invocation of the step comes from a successful fetch that parsed at
least one record. -/
theorem processStation_empty_no_write (failAt : Option WFail) (dataDir s : String)
    (res : Except String (List MetRow)) (fs : FS) :
    processStation failAt dataDir s (.ok []) fs = (fs, []) ∧
    ((processStation failAt dataDir s res fs).2 ≠ [] →
      ∃ rows, res = .ok rows ∧ rows ≠ []) := by
  constructor
  · unfold processStation
    by_cases h : trimSpace s = ""
    · simp [h]
    · simp [h]
  · unfold processStation
    by_cases h : trimSpace s = ""
    · simp [h]
    · cases res with
      | error e => simp [h]
      | ok rows =>
        by_cases h0 : rows.length = 0
        · simp [h, h0]
        · intro _
          refine ⟨rows, rfl, ?_⟩
          intro hr
          subst hr
          simp at h0

/-- C10 witness: a successful one-record fetch does invoke the writer, and
the claim's converse direction applies to it. -/
theorem processStation_empty_no_write_witness :
    ∃ rows, (.ok [rowW] : Except String (List MetRow)) = .ok rows ∧ rows ≠ [] :=
  (processStation_empty_no_write none "data" "SANF1" (.ok [rowW]) fsW).2 (by decide)
